import Mathlib

/-!
A shallow embedding of the provider-scraping program (`newproject.py`) and
proofs about its behavior.

The embedding models:
* Python string primitives used by the code (`strip`, `split`, the `in`
  substring test, `sorted`) as executable functions on `String`/`List Char`;
* the parsed HTML document as structured data: the stream of sibling `div`
  blocks holding listing headers and listing contents (`SibDiv`), plus the
  text/anchor view used by `scrape_content` (`Page`);
* the HTTP fetch through the proxy as an oracle value (`FetchOutcome`)
  consumed by `fetch_html_via_proxy` / `scrape_content`;
* `json.dumps(..., ensure_ascii=False, indent=2)` restricted to the two value
  shapes the program serializes (a flat string-valued object, and a list of
  flat string-valued objects);
* Python exceptions as `Except String`, with raising code (`IndexError` from
  `split(":")[1]`, `KeyError` from `link_tag['href']`, `TypeError` from a bad
  keyword call) returning `Except.error`;
* the assistant run loop as an event-trace function over a script of polled
  run states.
-/

/-- Python whitespace as stripped by `str.strip()` (ASCII subset actually
exercised by the page texts; `\x0b`/`\x0c` included as in Python). -/
def pyWs (c : Char) : Bool :=
  c = ' ' || c = '\t' || c = '\n' || c = '\r' || c = '\x0b' || c = '\x0c'

/-- Model of Python `str.strip()`: drop leading and trailing whitespace. -/
def pyStrip (s : String) : String :=
  String.mk (((s.data.dropWhile pyWs).reverse.dropWhile pyWs).reverse)

/-- Split a character list on every occurrence of `sep` (no collapsing of
adjacent separators), as Python `str.split(sep)` with a one-character
separator does; the result is always non-empty. -/
def splitOnChar (sep : Char) : List Char → List (List Char)
  | [] => [[]]
  | c :: t =>
    let r := splitOnChar sep t
    if c = sep then [] :: r
    else
      match r with
      | [] => [[c]]
      | h :: t2 => (c :: h) :: t2

/-- Model of Python `s.split(sep)` for a one-character separator. -/
def pySplit (s : String) (sep : Char) : List String :=
  (splitOnChar sep s.data).map String.mk

/-- Occurrence of `pat` as a contiguous substring of a character list. -/
def substrAt (pat : List Char) : List Char → Bool
  | [] => pat.isEmpty
  | c :: t => List.isPrefixOf pat (c :: t) || substrAt pat t

/-- Model of Python `pat in hay` on strings (contiguous substring test). -/
def pyIn (pat hay : String) : Bool := substrAt pat.data hay.data

/-- Lexicographic comparison of character lists by code point, as Python
compares strings. -/
def lexLe : List Char → List Char → Bool
  | [], _ => true
  | _ :: _, [] => false
  | a :: as, b :: bs =>
    if a.toNat < b.toNat then true
    else if b.toNat < a.toNat then false
    else lexLe as bs

/-- Python string `<=` (code-point lexicographic order). -/
def strLe (a b : String) : Bool := lexLe a.data b.data

/-- Sorted insertion for the model of Python `sorted`. -/
def pyInsert (x : String) : List String → List String
  | [] => [x]
  | y :: ys => if strLe x y then x :: y :: ys else y :: pyInsert x ys

/-- Model of Python `sorted` on lists of strings (insertion sort under
code-point lexicographic order). -/
def pySorted : List String → List String
  | [] => []
  | x :: xs => pyInsert x (pySorted xs)

/-! ## JSON serialization (`json.dumps(..., ensure_ascii=False, indent=2)`) -/

/-- Lower-case hexadecimal digit. -/
def jsonHexDigit (n : Nat) : Char :=
  if n < 10 then Char.ofNat (48 + n) else Char.ofNat (87 + n)

/-- Four-digit lower-case hex rendering used for `\uXXXX` escapes. -/
def jsonHex4 (n : Nat) : String :=
  String.mk [jsonHexDigit (n / 4096 % 16), jsonHexDigit (n / 256 % 16),
    jsonHexDigit (n / 16 % 16), jsonHexDigit (n % 16)]

/-- Escaping of one character inside a JSON string literal, with
`ensure_ascii=False` as the program always passes: only the quote, the
backslash and control characters are escaped; every other character —
in particular every non-ASCII character — passes through literally. -/
def jsonEscapeChar (c : Char) : String :=
  if c = '"' then "\\\""
  else if c = '\\' then "\\\\"
  else if c = '\n' then "\\n"
  else if c = '\t' then "\\t"
  else if c = '\r' then "\\r"
  else if c = '\x08' then "\\b"
  else if c = '\x0c' then "\\f"
  else if c.toNat < 32 then "\\u" ++ jsonHex4 c.toNat
  else String.singleton c

/-- A JSON string literal with `ensure_ascii=False` escaping. -/
def jsonQuote (s : String) : String :=
  "\"" ++ String.join (s.data.map jsonEscapeChar) ++ "\""

/-- Indentation for nesting depth `depth` with `indent=2`. -/
def jsonIndentPad (depth : Nat) : String :=
  String.mk (List.replicate (2 * depth) ' ')

/-- One `"key": "value"` line of an indented JSON object. -/
def dumpsStrField (depth : Nat) (kv : String × String) : String :=
  jsonIndentPad depth ++ jsonQuote kv.1 ++ ": " ++ jsonQuote kv.2

/-- `json.dumps` of a flat string-valued dict with `ensure_ascii=False,
indent=2`, rendered at nesting depth `depth`. -/
def dumpsFlatObj (depth : Nat) (fields : List (String × String)) : String :=
  match fields with
  | [] => "\x7b\x7d"
  | _ => "\x7b\n" ++ String.intercalate ",\n" (fields.map (dumpsStrField (depth + 1)))
      ++ "\n" ++ jsonIndentPad depth ++ "\x7d"

/-- `json.dumps` of a list of flat string-valued dicts with
`ensure_ascii=False, indent=2` (the shape of the extracted record list). -/
def dumpsObjList (objs : List (List (String × String))) : String :=
  match objs with
  | [] => "[]"
  | _ => "[\n" ++ String.intercalate ",\n"
      (objs.map (fun o => jsonIndentPad 1 ++ dumpsFlatObj 1 o)) ++ "\n]"

/-- The serialized error payload
`json.dumps({"error": "Failed to scrape provider search results."},
ensure_ascii=False, indent=2)`. -/
def errorJsonText : String :=
  dumpsFlatObj 0 [("error", "Failed to scrape provider search results.")]

/-! ## The parsed document -/

/-- An `<a>` tag: its `href` attribute (`none` when the attribute is absent,
in which case `link_tag['href']` raises `KeyError`) and its `.text`. -/
structure LinkTag where
  href : Option String
  text : String
deriving DecidableEq

/-- A `div.directorist-listing-single__header` block: its first descendant
`<a>` tag, if any (`header_div.find('a')`). -/
structure HeaderDiv where
  link : Option LinkTag
deriving DecidableEq

/-- A `div.directorist-listing-card-text` element: the `style` attribute of
its `<i>` icon when that icon exists (`text_div.i.get('style', '')`, so a
style-less icon is `some ""`), and the element's `.text`. -/
structure CardText where
  icon : Option String
  text : String
deriving DecidableEq

/-- A `div.directorist-listing-card-phone` element: the `.text` of its first
`<a>` child, if any. -/
structure PhoneDiv where
  a : Option String
deriving DecidableEq

/-- A `div.directorist-listing-card-select` element: the `style` of its `<i>`
icon when present, and the whole element's `.text`. -/
structure SelectDiv where
  icon : Option String
  text : String
deriving DecidableEq

/-- One `<li>` of the info list, with the three optional sub-elements the
extractor looks up inside it. -/
structure ListItem where
  text_div : Option CardText
  phone_div : Option PhoneDiv
  select_div : Option SelectDiv
deriving DecidableEq

/-- A `div.directorist-listing-single__content` block: its
`div.directorist-listing-single__info--list` container with that container's
`<li>` items, or `none` when the container is absent. -/
structure ContentDiv where
  info : Option (List ListItem)
deriving DecidableEq

/-- One sibling `div` in the listing stream of a search-results page: a
listing header, a listing content block, or any other sibling. -/
inductive SibDiv where
  | header (h : HeaderDiv)
  | content (c : ContentDiv)
  | other
deriving DecidableEq

/-- Whether a sibling div is a listing content block. -/
def isContentDiv : SibDiv → Bool
  | .content _ => true
  | _ => false

/-- The parsed document (`BeautifulSoup(response.text, 'html.parser')`):
the visible-text view (`get_text(separator="\n", strip=True)`), the `href`
attributes of all `<a>` tags (`none` where the attribute is absent), and the
sibling stream of listing headers/contents. -/
structure Page where
  text : String
  anchors : List (Option String)
  listingStream : List SibDiv

/-- One extracted provider record (the mutable `data` dict); every field is
optional and starts absent. -/
structure ProviderRecord where
  href : Option String := none
  name : Option String := none
  clinic : Option String := none
  address : Option String := none
  NPI : Option String := none
  phone : Option String := none
  accepting_patients : Option String := none
deriving DecidableEq

/-- The serialized fields of a record, in the program's field order, skipping
absent fields (models the `data` dict as passed to `json.dumps`). -/
def optField (k : String) : Option String → List (String × String)
  | some v => [(k, v)]
  | none => []

/-- All present fields of a record in declaration order. -/
def recordFields (r : ProviderRecord) : List (String × String) :=
  optField "href" r.href ++ optField "name" r.name ++ optField "clinic" r.clinic ++
  optField "address" r.address ++ optField "NPI" r.NPI ++ optField "phone" r.phone ++
  optField "accepting_patients" r.accepting_patients

/-! ## The listing extractor (`extract_data`, lines 100-149) -/

/-- Lines 120-135: the `directorist-listing-card-text` branch of the loop
body. Mirrors the source exactly: the clinic test is an independent `if`;
the address test is an `if` whose `elif` holds the NPI test, so the NPI
assignment runs only when the icon style lacks the map-marker marker; and
`text_content.split(":")[1]` raises `IndexError` when the text has no
colon. -/
def applyText (data : ProviderRecord) (li : ListItem) : Except String ProviderRecord :=
  match li.text_div with
  | some td =>
    match td.icon with
    | some icon_style =>
      let text_content := pyStrip td.text
      let data1 :=
        if pyIn "comment-solid" icon_style && !(pyIn "NPI" text_content) then
          { data with clinic := some text_content }
        else data
      if pyIn "map-marker-solid" icon_style then
        .ok { data1 with address := some text_content }
      else if pyIn "comment-solid" icon_style && pyIn "NPI" text_content then
        match (pySplit text_content ':').get? 1 with
        | some s => .ok { data1 with NPI := some (pyStrip s) }
        | none => .error "IndexError: list index out of range"
      else .ok data1
    | none => .ok data
  | none => .ok data

/-- Lines 137-140: the phone branch of the loop body. -/
def applyPhone (data : ProviderRecord) (li : ListItem) : ProviderRecord :=
  match li.phone_div with
  | some pd =>
    match pd.a with
    | some t => { data with phone := some (pyStrip t) }
    | none => data
  | none => data

/-- Lines 142-145: the accepting-patients branch of the loop body;
`select_div.text.split(":")[1]` raises `IndexError` when the text has no
colon. -/
def applySelect (data : ProviderRecord) (li : ListItem) : Except String ProviderRecord :=
  match li.select_div with
  | some sd =>
    match sd.icon with
    | some st =>
      if pyIn "check-circle-solid" st then
        match (pySplit sd.text ':').get? 1 with
        | some s => .ok { data with accepting_patients := some (pyStrip s) }
        | none => .error "IndexError: list index out of range"
      else .ok data
    | none => .ok data
  | none => .ok data

/-- One iteration of the `for li in list_items` loop (lines 120-145). -/
def processItem (data : ProviderRecord) (li : ListItem) : Except String ProviderRecord := do
  let d1 ← applyText data li
  let d2 := applyPhone d1 li
  applySelect d2 li

/-- One iteration of the `for listing in listings` loop (lines 105-147),
given the header block located by `find_previous_sibling`. A link without an
`href` attribute raises `KeyError` as `link_tag['href']` does. -/
def processListing (hdr : Option HeaderDiv) (c : ContentDiv) : Except String ProviderRecord := do
  let data ←
    match hdr with
    | some hd =>
      match hd.link with
      | some lt =>
        match lt.href with
        | some h =>
          pure ({ href := some h, name := some (pyStrip lt.text) } : ProviderRecord)
        | none => throw "KeyError: 'href'"
      | none => pure ({} : ProviderRecord)
    | none => pure ({} : ProviderRecord)
  match c.info with
  | some items => items.foldlM processItem data
  | none => pure data

/-- `listing.find_previous_sibling('div', class_='...__header')`: the nearest
earlier sibling that is a header block, given the earlier siblings in
closest-first order. -/
def prevHeader : List SibDiv → Option HeaderDiv
  | [] => none
  | SibDiv.header h :: _ => some h
  | SibDiv.content _ :: rest => prevHeader rest
  | SibDiv.other :: rest => prevHeader rest

/-- The extractor's traversal of the sibling stream: `prev` holds the already
passed siblings in closest-first order; each content block is processed with
the nearest previous header sibling. -/
def extractGo : List SibDiv → List SibDiv → Except String (List ProviderRecord)
  | _, [] => .ok []
  | prev, SibDiv.header h :: rest => extractGo (SibDiv.header h :: prev) rest
  | prev, SibDiv.content c :: rest => do
    let r ← processListing (prevHeader prev) c
    let rs ← extractGo (SibDiv.content c :: prev) rest
    pure (r :: rs)
  | prev, SibDiv.other :: rest => extractGo (SibDiv.other :: prev) rest

/-- `extract_data(soup)` (lines 100-149): one record per listing content
block, in document order; a raised `IndexError`/`KeyError` aborts the whole
extraction. -/
def extract_data (soup : List SibDiv) : Except String (List ProviderRecord) :=
  extractGo [] soup

/-- The (nearest-previous-header, content) pair of every listing content
block in the stream, in document order. Used to state which inputs each
extracted record is derived from. -/
def listingPairs : List SibDiv → List SibDiv → List (Option HeaderDiv × ContentDiv)
  | _, [] => []
  | prev, SibDiv.header h :: rest => listingPairs (SibDiv.header h :: prev) rest
  | prev, SibDiv.content c :: rest =>
    (prevHeader prev, c) :: listingPairs (SibDiv.content c :: prev) rest
  | prev, SibDiv.other :: rest => listingPairs (SibDiv.other :: prev) rest

/-! ## Fetching and the two scraping entry points -/

/-- The outcome of the proxied `requests.get`: a response with a status code
and the parsed document, or one of the transport-level exceptions the code
distinguishes (`Timeout` and `TooManyRedirects` are `RequestException`
subclasses, so every transport case is caught by both fetchers). -/
inductive FetchOutcome where
  | response (status : Nat) (page : Page)
  | timeout
  | tooManyRedirects
  | otherRequestException (msg : String)

/-- `fetch_html_via_proxy` (lines 32-51): the parsed document on HTTP 200,
`None` on any other status or on any `RequestException`. -/
def fetch_html_via_proxy : FetchOutcome → Option Page
  | .response status page => if status = 200 then some page else none
  | .timeout => none
  | .tooManyRedirects => none
  | .otherRequestException _ => none

/-- The value `scrape_content` returns on success. -/
structure ScrapeResult where
  content : String
  links : List String
deriving DecidableEq

/-- `scrape_content` (lines 53-97): on HTTP 200, the page text together with
the deduplicated (`set`), truthiness-filtered, sorted `href` values of the
`<a href>` tags; on any other status or transport failure, `None`. -/
def scrape_content : FetchOutcome → Option ScrapeResult
  | .response status page =>
    if status = 200 then
      some { content := page.text,
             links := pySorted (((page.anchors.filterMap id).dedup).filter (fun l => l != "")) }
    else none
  | .timeout => none
  | .tooManyRedirects => none
  | .otherRequestException _ => none

/-- `scrape_provider_search` (lines 151-165): on fetch failure, the serialized
error object; on success, the extracted records when non-empty (serialized
with `ensure_ascii=False, indent=2`), and the same error object when the
extraction is empty. An exception raised by `extract_data` propagates.
(The `if soup:` truthiness test is modelled as the fetch returning a
document.) -/
def scrape_provider_search (fetch : FetchOutcome) : Except String String :=
  match fetch_html_via_proxy fetch with
  | some page =>
    match extract_data page.listingStream with
    | .ok extracted =>
      if extracted.isEmpty then .ok errorJsonText
      else .ok (dumpsObjList (extracted.map recordFields))
    | .error e => .error e
  | none => .ok errorJsonText

/-! ## Tool dispatch (`safe_tool_call`, `available_functions`,
`handle_tool_outputs`) and the run loop -/

/-- A Python value as passed between the dispatcher and the tools. -/
inductive PyValue where
  | pyNone
  | pyStr (s : String)
  | pyInt (n : Int)
  | pyList (xs : List PyValue)
  | pyDict (fields : List (String × PyValue))

/-- A keyword-argument mapping (the parsed `call.function.arguments`). -/
def ArgMap := List (String × PyValue)

/-- Keyword lookup in an argument mapping. -/
def lookupArg : ArgMap → String → Option PyValue
  | [], _ => none
  | (k, v) :: t, key => if k = key then some v else lookupArg t key

/-- `safe_tool_call` (lines 167-174): run the tool; substitute the placeholder
exactly when the result `is None`; convert any raised exception into the
`"Error occurred in ..."` string. -/
def safe_tool_call (func : ArgMap → Except String PyValue) (tool_name : String)
    (kwargs : ArgMap) : PyValue :=
  match func kwargs with
  | .ok .pyNone => .pyStr ("No content returned from " ++ tool_name)
  | .ok r => r
  | .error e => .pyStr ("Error occurred in " ++ tool_name ++ ": " ++ e)

/-- Python's call binding for `def f(url): ...` invoked as `f(**kwargs)`:
a keyword other than `url` raises `TypeError`, a missing `url` raises
`TypeError`, otherwise the body runs on the bound value. -/
def callWithUrlArg (fname : String) (body : PyValue → Except String PyValue)
    (kwargs : ArgMap) : Except String PyValue :=
  if kwargs.all (fun kv => kv.1 == "url") then
    match lookupArg kwargs "url" with
    | some v => body v
    | none => .error (fname ++ "() missing 1 required positional argument: 'url'")
  else .error (fname ++ "() got an unexpected keyword argument")

/-- The dict/None result of `scrape_content` as a Python value. -/
def scrapeResultToPy : Option ScrapeResult → PyValue
  | some r => .pyDict [("content", .pyStr r.content),
      ("links", .pyList (r.links.map PyValue.pyStr))]
  | none => .pyNone

/-- The status of an assistant run as polled by the conversation loop. -/
inductive RunStatus where
  | queued
  | in_progress
  | requires_action
  | completed
  | failed
deriving DecidableEq

/-- One tool call emitted by a run that requires action (with the JSON
argument string already parsed into the keyword mapping). -/
structure ToolCall where
  id : String
  function_name : String
  arguments : ArgMap

/-- One tool output as appended to the `tool_outputs` batch; `output` holds
the Python value handed to `json.dumps` at submission. -/
structure ToolOutput where
  tool_call_id : String
  output : PyValue

/-- An assistant run as seen by the loop: its status and, when it requires
action, its pending tool calls. -/
structure Run where
  status : RunStatus
  tool_calls : List ToolCall

/-- The network environment: the fetch outcome each tool's request produces
for a given `url` argument, and the result of `submit_tool_outputs`
(`none` models a submission failure, which `handle_tool_outputs` turns into
a `None` return). -/
structure World where
  contentFetch : PyValue → FetchOutcome
  searchFetch : PyValue → FetchOutcome
  submitOutcome : List ToolOutput → Option Run

/-- `available_functions` (lines 215-218): the fixed tool registry. -/
def available_functions (w : World) : String → Option (ArgMap → Except String PyValue)
  | "scrape_content" =>
    some (callWithUrlArg "scrape_content"
      (fun v => .ok (scrapeResultToPy (scrape_content (w.contentFetch v)))))
  | "scrape_provider_search" =>
    some (callWithUrlArg "scrape_provider_search"
      (fun v => (scrape_provider_search (w.searchFetch v)).map PyValue.pyStr))
  | _ => none

/-- One dispatch step of `handle_tool_outputs` (lines 305-313): look the name
up, raising `ValueError` when absent, and otherwise run the tool through
`safe_tool_call`. -/
def invoke (w : World) (toolName : String) (kwargs : ArgMap) : Except String PyValue :=
  match available_functions w toolName with
  | none => .error ("Function " ++ toolName ++ " not found in available_functions.")
  | some f => .ok (safe_tool_call f toolName kwargs)

/-- Observable actions of the conversation loop: a poll of the run status
(`runs.retrieve`), the dispatch of one tool call, and one
`submit_tool_outputs` request carrying a whole batch. -/
inductive Event where
  | poll
  | dispatch (callId : String)
  | submitBatch (outs : List ToolOutput)

/-- The `for call in ... tool_calls` loop of `handle_tool_outputs` (lines
305-320): each call is looked up (an unknown name raises `ValueError`,
aborting the loop) and executed through `safe_tool_call`, appending exactly
one output per call. Returns the dispatch events performed and either the
collected batch or the raised error. -/
def dispatchCalls (w : World) : List ToolCall → List Event × Except String (List ToolOutput)
  | [] => ([], .ok [])
  | c :: cs =>
    match available_functions w c.function_name with
    | none => ([], .error ("Function " ++ c.function_name ++ " not found in available_functions."))
    | some f =>
      let out : ToolOutput := ⟨c.id, safe_tool_call f c.function_name c.arguments⟩
      let (evs, res) := dispatchCalls w cs
      (Event.dispatch c.id :: evs, res.map (fun outs => out :: outs))

/-- `handle_tool_outputs` (lines 302-330): dispatch every pending call, then
submit the whole batch in one `submit_tool_outputs` request; any exception
(unknown tool, submission failure) makes the function return `None`. The
first component is the emitted event trace. -/
def handle_tool_outputs (w : World) (run : Run) : List Event × Option Run :=
  let (evs, res) := dispatchCalls w run.tool_calls
  match res with
  | .ok outs => (evs ++ [Event.submitBatch outs], w.submitOutcome outs)
  | .error _ => (evs, none)

/-- The polling loop of `get_agent_response` (lines 347-354) as an event
trace. `script` lists the runs returned by successive `runs.retrieve` calls;
a retrieved `requires_action` run is handed to `handle_tool_outputs` and the
loop continues on the run returned by the submission. A `none` run (a failed
`handle_tool_outputs`) aborts the loop, as `run.status` on `None` raises. -/
def pollLoop (w : World) : Option Run → List Run → List Event
  | none, _ => []
  | some run, script =>
    if run.status = RunStatus.queued || run.status = RunStatus.in_progress then
      match script with
      | [] => []
      | r :: rest =>
        if r.status = RunStatus.requires_action then
          let (evs, run2) := handle_tool_outputs w r
          Event.poll :: (evs ++ pollLoop w run2 rest)
        else
          Event.poll :: pollLoop w (some r) rest
    else []

/-! ## Concrete fixtures used by witnesses and counterexamples -/

/-- A network environment in which every request times out and every
submission fails. -/
def wFix : World :=
  ⟨fun _ => FetchOutcome.timeout, fun _ => FetchOutcome.timeout, fun _ => none⟩

/-- A page used to exercise `scrape_content`'s link collection. -/
def pageFix : Page := ⟨"txt", [some "/b", some "/a", some "/a", none, some ""], []⟩

/-- A header block holding one link. -/
def headerFixA : HeaderDiv := ⟨some ⟨some "https://a", "Dr. A"⟩⟩

/-- A sibling stream in which the second listing content block has no header
of its own: its nearest previous header sibling belongs to the first
listing. -/
def soupLeak : List SibDiv :=
  [SibDiv.header headerFixA, SibDiv.content ⟨none⟩, SibDiv.content ⟨none⟩]

/-- The record extracted for both content blocks of `soupLeak`. -/
def recLeak : ProviderRecord := { href := some "https://a", name := some "Dr. A" }

/-- An initial run as returned by `runs.create`. -/
def runQueuedFix : Run := ⟨RunStatus.queued, []⟩

/-- A polled run that requires action with two pending tool calls. -/
def runActionFix : Run :=
  ⟨RunStatus.requires_action,
    [⟨"call_1", "scrape_content", [("url", PyValue.pyStr "u")]⟩,
     ⟨"call_2", "scrape_provider_search", [("url", PyValue.pyStr "u")]⟩]⟩

/-! ## Helper lemmas: the order used by the model of `sorted` -/

theorem lexLe_total (as bs : List Char) : lexLe as bs = true ∨ lexLe bs as = true := by
  induction as generalizing bs with
  | nil => left; rfl
  | cons a as ih =>
    cases bs with
    | nil => right; rfl
    | cons b bs =>
      by_cases h1 : a.toNat < b.toNat
      · left; simp [lexLe, h1]
      · by_cases h2 : b.toNat < a.toNat
        · right; simp [lexLe, h2]
        · rcases ih bs with h | h
          · left; simp [lexLe, h1, h2, h]
          · right; simp [lexLe, h1, h2, h]

theorem lexLe_trans {as bs cs : List Char} (h1 : lexLe as bs = true)
    (h2 : lexLe bs cs = true) : lexLe as cs = true := by
  induction as generalizing bs cs with
  | nil => rfl
  | cons a as ih =>
    cases bs with
    | nil => simp [lexLe] at h1
    | cons b bs =>
      cases cs with
      | nil => simp [lexLe] at h2
      | cons c cs =>
        by_cases hab : a.toNat < b.toNat
        · by_cases hbc : b.toNat < c.toNat
          · have hac : a.toNat < c.toNat := by omega
            simp [lexLe, hac]
          · by_cases hcb : c.toNat < b.toNat
            · simp [lexLe, hbc, hcb] at h2
            · have hac : a.toNat < c.toNat := by omega
              simp [lexLe, hac]
        · by_cases hba : b.toNat < a.toNat
          · simp [lexLe, hab, hba] at h1
          · simp only [lexLe, if_neg hab, if_neg hba] at h1
            by_cases hbc : b.toNat < c.toNat
            · have hac : a.toNat < c.toNat := by omega
              simp [lexLe, hac]
            · by_cases hcb : c.toNat < b.toNat
              · simp [lexLe, hbc, hcb] at h2
              · simp only [lexLe, if_neg hbc, if_neg hcb] at h2
                have hac : ¬ a.toNat < c.toNat := by omega
                have hca : ¬ c.toNat < a.toNat := by omega
                simp only [lexLe, if_neg hac, if_neg hca]
                exact ih h1 h2

theorem strLe_total (a b : String) : strLe a b = true ∨ strLe b a = true :=
  lexLe_total a.data b.data

theorem strLe_trans {a b c : String} (h1 : strLe a b = true) (h2 : strLe b c = true) :
    strLe a c = true :=
  lexLe_trans h1 h2

theorem pyInsert_perm (x : String) (l : List String) :
    (pyInsert x l).Perm (x :: l) := by
  induction l with
  | nil => exact List.Perm.refl _
  | cons y ys ih =>
    by_cases h : strLe x y = true
    · simp [pyInsert, h]
    · simp only [pyInsert, if_neg h]
      exact (ih.cons y).trans (List.Perm.swap x y ys)

theorem pySorted_perm (l : List String) : (pySorted l).Perm l := by
  induction l with
  | nil => exact List.Perm.refl _
  | cons x xs ih =>
    exact (pyInsert_perm x (pySorted xs)).trans (ih.cons x)

theorem pyInsert_pairwise (x : String) (l : List String)
    (h : l.Pairwise (fun a b => strLe a b = true)) :
    (pyInsert x l).Pairwise (fun a b => strLe a b = true) := by
  induction l with
  | nil => simp [pyInsert]
  | cons y ys ih =>
    rcases List.pairwise_cons.mp h with ⟨hy, hys⟩
    by_cases hxy : strLe x y = true
    · simp only [pyInsert, if_pos hxy]
      refine List.pairwise_cons.mpr ⟨?_, h⟩
      intro z hz
      rcases List.mem_cons.mp hz with rfl | hz
      · exact hxy
      · exact strLe_trans hxy (hy z hz)
    · have hyx : strLe y x = true := (strLe_total x y).resolve_left hxy
      simp only [pyInsert, if_neg hxy]
      refine List.pairwise_cons.mpr ⟨?_, ih hys⟩
      intro z hz
      rcases List.mem_cons.mp ((pyInsert_perm x ys).mem_iff.mp hz) with rfl | hz
      · exact hyx
      · exact hy z hz

theorem pySorted_pairwise (l : List String) :
    (pySorted l).Pairwise (fun a b => strLe a b = true) := by
  induction l with
  | nil => simp [pySorted]
  | cons x xs ih => exact pyInsert_pairwise x (pySorted xs) ih

/-! ## Helper lemmas: which fields each extractor branch can touch -/

theorem applyText_ok_same {d : ProviderRecord} {li : ListItem} {r : ProviderRecord}
    (h : applyText d li = .ok r) :
    r.href = d.href ∧ r.name = d.name ∧ r.phone = d.phone ∧
    r.accepting_patients = d.accepting_patients := by
  unfold applyText at h
  split at h
  case h_2 => obtain rfl := Except.ok.inj h; exact ⟨rfl, rfl, rfl, rfl⟩
  split at h
  case h_2 => obtain rfl := Except.ok.inj h; exact ⟨rfl, rfl, rfl, rfl⟩
  dsimp only at h
  split at h
  · obtain rfl := Except.ok.inj h
    split <;> exact ⟨rfl, rfl, rfl, rfl⟩
  · split at h
    · split at h
      · obtain rfl := Except.ok.inj h
        split <;> exact ⟨rfl, rfl, rfl, rfl⟩
      · exact absurd h (by simp)
    · obtain rfl := Except.ok.inj h
      split <;> exact ⟨rfl, rfl, rfl, rfl⟩

theorem applyPhone_same (d : ProviderRecord) (li : ListItem) :
    (applyPhone d li).href = d.href ∧ (applyPhone d li).name = d.name ∧
    (applyPhone d li).clinic = d.clinic ∧ (applyPhone d li).address = d.address ∧
    (applyPhone d li).NPI = d.NPI ∧
    (applyPhone d li).accepting_patients = d.accepting_patients := by
  unfold applyPhone
  split
  · split <;> exact ⟨rfl, rfl, rfl, rfl, rfl, rfl⟩
  · exact ⟨rfl, rfl, rfl, rfl, rfl, rfl⟩

theorem applySelect_ok_same {d : ProviderRecord} {li : ListItem} {r : ProviderRecord}
    (h : applySelect d li = .ok r) :
    r.href = d.href ∧ r.name = d.name ∧ r.clinic = d.clinic ∧
    r.address = d.address ∧ r.NPI = d.NPI ∧ r.phone = d.phone := by
  unfold applySelect at h
  split at h
  · split at h
    · split at h
      · split at h
        · obtain rfl := Except.ok.inj h
          exact ⟨rfl, rfl, rfl, rfl, rfl, rfl⟩
        · exact absurd h (by simp)
      · obtain rfl := Except.ok.inj h
        exact ⟨rfl, rfl, rfl, rfl, rfl, rfl⟩
    · obtain rfl := Except.ok.inj h
      exact ⟨rfl, rfl, rfl, rfl, rfl, rfl⟩
  · obtain rfl := Except.ok.inj h
    exact ⟨rfl, rfl, rfl, rfl, rfl, rfl⟩

theorem processItem_ok_decomp {d : ProviderRecord} {li : ListItem} {r : ProviderRecord}
    (h : processItem d li = .ok r) :
    ∃ d1, applyText d li = .ok d1 ∧ applySelect (applyPhone d1 li) li = .ok r := by
  unfold processItem at h
  cases ht : applyText d li with
  | error e => rw [ht] at h; exact absurd h (by simp [Bind.bind, Except.bind])
  | ok d1 =>
    rw [ht] at h
    simp only [Bind.bind, Except.bind] at h
    exact ⟨d1, rfl, h⟩

theorem processItem_ok_href_name {d : ProviderRecord} {li : ListItem} {r : ProviderRecord}
    (h : processItem d li = .ok r) : r.href = d.href ∧ r.name = d.name := by
  obtain ⟨d1, ht, hs⟩ := processItem_ok_decomp h
  obtain ⟨th, tn, -, -⟩ := applyText_ok_same ht
  obtain ⟨ph, pn, -, -, -, -⟩ := applyPhone_same d1 li
  obtain ⟨sh, sn, -, -, -, -⟩ := applySelect_ok_same hs
  exact ⟨sh.trans (ph.trans th), sn.trans (pn.trans tn)⟩

theorem foldlM_processItem_href_name :
    ∀ (items : List ListItem) (d r : ProviderRecord),
      items.foldlM processItem d = .ok r → r.href = d.href ∧ r.name = d.name := by
  intro items
  induction items with
  | nil =>
    intro d r h
    obtain rfl := Except.ok.inj h
    exact ⟨rfl, rfl⟩
  | cons li rest ih =>
    intro d r h
    rw [List.foldlM_cons] at h
    cases hp : processItem d li with
    | error e => rw [hp] at h; exact absurd h (by simp [Bind.bind, Except.bind])
    | ok d1 =>
      rw [hp] at h
      simp only [Bind.bind, Except.bind] at h
      obtain ⟨h1, h2⟩ := ih d1 r h
      obtain ⟨p1, p2⟩ := processItem_ok_href_name hp
      exact ⟨h1.trans p1, h2.trans p2⟩

/-! ## Helper lemmas: the extractor traversal -/

theorem extractGo_ok_spec :
    ∀ (l prev : List SibDiv) (rs : List ProviderRecord),
      extractGo prev l = .ok rs →
      rs.length = (listingPairs prev l).length ∧
      ∀ (i : Nat) (hi : i < rs.length) (hp : i < (listingPairs prev l).length),
        processListing ((listingPairs prev l).get ⟨i, hp⟩).1
            ((listingPairs prev l).get ⟨i, hp⟩).2 = .ok (rs.get ⟨i, hi⟩) := by
  intro l
  induction l with
  | nil =>
    intro prev rs h
    obtain rfl := Except.ok.inj h
    exact ⟨rfl, fun i hi => absurd hi (by simp)⟩
  | cons d rest ih =>
    intro prev rs h
    cases d with
    | header hd => exact ih (SibDiv.header hd :: prev) rs h
    | other => exact ih (SibDiv.other :: prev) rs h
    | content c =>
      unfold extractGo at h
      cases hc : processListing (prevHeader prev) c with
      | error e => rw [hc] at h; exact absurd h (by simp [Bind.bind, Except.bind])
      | ok r =>
        rw [hc] at h
        simp only [Bind.bind, Except.bind] at h
        cases hg : extractGo (SibDiv.content c :: prev) rest with
        | error e => rw [hg] at h; exact absurd h (by simp [Except.bind])
        | ok rs2 =>
          rw [hg] at h
          simp only [Except.bind] at h
          obtain rfl := Except.ok.inj h
          obtain ⟨hlen, hidx⟩ := ih (SibDiv.content c :: prev) rs2 hg
          refine ⟨by simp [listingPairs, hlen], ?_⟩
          intro i hi hp
          cases i with
          | zero => simpa [listingPairs] using hc
          | succ j =>
            have hj : j < rs2.length := by simpa using hi
            have hpj : j < (listingPairs (SibDiv.content c :: prev) rest).length := by
              simpa [listingPairs] using hp
            simpa [listingPairs] using hidx j hj hpj

theorem listingPairs_length :
    ∀ (l prev : List SibDiv), (listingPairs prev l).length = l.countP isContentDiv := by
  intro l
  induction l with
  | nil => intro prev; simp [listingPairs]
  | cons d rest ih =>
    intro prev
    cases d with
    | header hd => simp [listingPairs, List.countP_cons, isContentDiv, ih]
    | content c => simp [listingPairs, List.countP_cons, isContentDiv, ih]
    | other => simp [listingPairs, List.countP_cons, isContentDiv, ih]

/-! ## Helper lemmas: the card-text branch behavior -/

theorem applyText_ok_fields {d : ProviderRecord} {li : ListItem} {td : CardText}
    {style : String} {r : ProviderRecord}
    (h1 : li.text_div = some td) (h2 : td.icon = some style)
    (h : applyText d li = .ok r) :
    r.clinic = (if pyIn "comment-solid" style && !pyIn "NPI" (pyStrip td.text)
      then some (pyStrip td.text) else d.clinic) ∧
    r.address = (if pyIn "map-marker-solid" style then some (pyStrip td.text) else d.address) ∧
    (pyIn "map-marker-solid" style = true → r.NPI = d.NPI) ∧
    (pyIn "map-marker-solid" style = false →
      (pyIn "comment-solid" style && pyIn "NPI" (pyStrip td.text)) = false → r.NPI = d.NPI) ∧
    (∀ s, pyIn "map-marker-solid" style = false →
      (pyIn "comment-solid" style && pyIn "NPI" (pyStrip td.text)) = true →
      (pySplit (pyStrip td.text) ':').get? 1 = some s → r.NPI = some (pyStrip s)) := by
  unfold applyText at h
  rw [h1] at h
  dsimp only at h
  rw [h2] at h
  dsimp only at h
  by_cases hM : pyIn "map-marker-solid" style = true
  · rw [if_pos hM] at h
    obtain rfl := Except.ok.inj h
    refine ⟨?_, ?_, ?_, ?_, ?_⟩
    · by_cases hc : (pyIn "comment-solid" style && !pyIn "NPI" (pyStrip td.text)) = true
      · simp [hc]
      · simp [hc]
    · simp [hM]
    · intro _
      by_cases hc : (pyIn "comment-solid" style && !pyIn "NPI" (pyStrip td.text)) = true
      · simp [hc]
      · simp [hc]
    · intro hM2 _
      rw [hM] at hM2
      exact Bool.noConfusion hM2
    · intro s hM2 _ _
      rw [hM] at hM2
      exact Bool.noConfusion hM2
  · rw [if_neg hM] at h
    by_cases hE : (pyIn "comment-solid" style && pyIn "NPI" (pyStrip td.text)) = true
    · rw [if_pos hE] at h
      cases hs : (pySplit (pyStrip td.text) ':').get? 1 with
      | none => rw [hs] at h; exact absurd h (by simp)
      | some s =>
        rw [hs] at h
        obtain rfl := Except.ok.inj h
        have hN : pyIn "NPI" (pyStrip td.text) = true := by
          have h4 := hE
          simp only [Bool.and_eq_true] at h4
          exact h4.2
        have hcl : (pyIn "comment-solid" style && !pyIn "NPI" (pyStrip td.text)) = false := by
          simp [hN]
        refine ⟨?_, ?_, ?_, ?_, ?_⟩
        · simp [hcl]
        · simp [hM, hcl]
        · intro hM2
          exact absurd hM2 hM
        · intro _ hE2
          rw [hE] at hE2
          exact Bool.noConfusion hE2
        · intro s2 _ _ hs2
          obtain rfl := Option.some.inj hs2
          rfl
    · rw [if_neg hE] at h
      obtain rfl := Except.ok.inj h
      refine ⟨?_, ?_, ?_, ?_, ?_⟩
      · by_cases hc : (pyIn "comment-solid" style && !pyIn "NPI" (pyStrip td.text)) = true
        · simp [hc]
        · simp [hc]
      · by_cases hc : (pyIn "comment-solid" style && !pyIn "NPI" (pyStrip td.text)) = true
        · simp [hc, hM]
        · simp [hc, hM]
      · intro hM2
        exact absurd hM2 hM
      · intro _ _
        by_cases hc : (pyIn "comment-solid" style && !pyIn "NPI" (pyStrip td.text)) = true
        · simp [hc]
        · simp [hc]
      · intro s hM2 hE2 _
        exact absurd hE2 hE

/-! ## Claim theorems -/

/-- C1: `scrape_provider_search` returns the serialized JSON error object
`{"error": "Failed to scrape provider search results."}` both when the fetch
fails (any transport exception or any non-200 status such as 404) and when
the fetch succeeds but the extractor returns an empty record sequence; when
the extractor returns a non-empty record sequence it returns that sequence
serialized as indented JSON (`indent=2`) with non-ASCII characters preserved
literally (`ensure_ascii=False`: `jsonEscapeChar` maps every character with
code point at least 127 to itself). -/
theorem scrape_provider_search_return_cases :
    (∀ msg, scrape_provider_search (FetchOutcome.otherRequestException msg) = .ok errorJsonText) ∧
    scrape_provider_search FetchOutcome.timeout = .ok errorJsonText ∧
    scrape_provider_search FetchOutcome.tooManyRedirects = .ok errorJsonText ∧
    (∀ status page, status ≠ 200 →
      scrape_provider_search (FetchOutcome.response status page) = .ok errorJsonText) ∧
    (∀ page, extract_data page.listingStream = .ok [] →
      scrape_provider_search (FetchOutcome.response 200 page) = .ok errorJsonText) ∧
    (∀ page rs, extract_data page.listingStream = .ok rs → rs ≠ [] →
      scrape_provider_search (FetchOutcome.response 200 page) =
        .ok (dumpsObjList (rs.map recordFields))) ∧
    (∀ c : Char, 127 ≤ c.toNat → jsonEscapeChar c = String.singleton c) ∧
    errorJsonText = "\x7b\n  \"error\": \"Failed to scrape provider search results.\"\n\x7d" := by
  refine ⟨fun msg => rfl, rfl, rfl, ?_, ?_, ?_, ?_, rfl⟩
  · intro status page h
    unfold scrape_provider_search fetch_html_via_proxy
    dsimp only
    rw [if_neg h]
  · intro page h
    unfold scrape_provider_search fetch_html_via_proxy
    dsimp only
    rw [if_pos rfl]
    dsimp only
    rw [h]
    rfl
  · intro page rs h hne
    unfold scrape_provider_search fetch_html_via_proxy
    dsimp only
    rw [if_pos rfl]
    dsimp only
    rw [h]
    cases rs with
    | nil => exact absurd rfl hne
    | cons a t => rfl
  · intro c hc
    have h1 : c ≠ '"' := by rintro rfl; exact absurd hc (by decide)
    have h2 : c ≠ '\\' := by rintro rfl; exact absurd hc (by decide)
    have h3 : c ≠ '\n' := by rintro rfl; exact absurd hc (by decide)
    have h4 : c ≠ '\t' := by rintro rfl; exact absurd hc (by decide)
    have h5 : c ≠ '\r' := by rintro rfl; exact absurd hc (by decide)
    have h6 : c ≠ '\x08' := by rintro rfl; exact absurd hc (by decide)
    have h7 : c ≠ '\x0c' := by rintro rfl; exact absurd hc (by decide)
    have h8 : ¬ c.toNat < 32 := by omega
    simp [jsonEscapeChar, h1, h2, h3, h4, h5, h6, h7, h8]

/-- Witness for C1: a fetch that returns HTTP 404 yields exactly the
serialized error object. -/
theorem scrape_provider_search_return_cases_witness :
    scrape_provider_search (FetchOutcome.response 404 ⟨"", [], []⟩) =
      .ok "\x7b\n  \"error\": \"Failed to scrape provider search results.\"\n\x7d" := by
  have h := scrape_provider_search_return_cases
  rw [h.2.2.2.1 404 ⟨"", [], []⟩ (by decide), h.2.2.2.2.2.2.2]

/-- C2: tool dispatch is total from the caller's perspective: a tool name
absent from the registry makes `invoke` signal the `ValueError` lookup
failure (the one propagating case), while for every registered tool and
every argument mapping the dispatch returns a value, and any exception the
dispatched function raises (such as the `TypeError` from calling a tool
without its required `url` argument) is converted into the string
`"Error occurred in <toolName>: <message>"`. -/
theorem tool_dispatch_total (w : World) (name : String) (kwargs : ArgMap) :
    (available_functions w name = none →
      invoke w name kwargs =
        .error ("Function " ++ name ++ " not found in available_functions.")) ∧
    (∀ f, available_functions w name = some f →
      invoke w name kwargs = .ok (safe_tool_call f name kwargs) ∧
      ∀ e, f kwargs = .error e →
        invoke w name kwargs =
          .ok (.pyStr ("Error occurred in " ++ name ++ ": " ++ e))) := by
  constructor
  · intro h
    unfold invoke
    rw [h]
  · intro f hf
    constructor
    · unfold invoke
      rw [hf]
    · intro e he
      unfold invoke
      rw [hf]
      dsimp only
      unfold safe_tool_call
      rw [he]

/-- Witness for C2: an unknown tool name signals the lookup failure, and
invoking `scrape_provider_search` with a bad argument mapping (no `url`)
returns the `"Error occurred in scrape_provider_search: ..."` string instead
of raising. -/
theorem tool_dispatch_total_witness :
    invoke wFix "unknownTool" [] =
      .error "Function unknownTool not found in available_functions." ∧
    invoke wFix "scrape_provider_search" [("badArg", PyValue.pyInt 1)] =
      .ok (.pyStr "Error occurred in scrape_provider_search: scrape_provider_search() got an unexpected keyword argument") := by
  constructor
  · exact (tool_dispatch_total wFix "unknownTool" []).1 rfl
  · exact ((tool_dispatch_total wFix "scrape_provider_search"
      [("badArg", PyValue.pyInt 1)]).2 _ rfl).2 _ rfl

/-- C8, counterexample: the dispatcher does not substitute the placeholder
for an empty result. A dispatched function returning the empty string makes
`safe_tool_call` return that empty string unchanged rather than
`"No content returned from scrape_content"` — the code's test is
`result is not None`, which an empty string passes. -/
theorem empty_result_placeholder_cex :
    safe_tool_call (fun _ => .ok (.pyStr "")) "scrape_content" [] = .pyStr "" ∧
    PyValue.pyStr "" ≠ PyValue.pyStr "No content returned from scrape_content" := by
  refine ⟨rfl, ?_⟩
  intro h
  injection h with h2
  exact absurd h2 (by decide)

/-- C8, amended: `safe_tool_call` substitutes the fixed placeholder
`"No content returned from <toolName>"` exactly when the dispatched function
returns `None`; every other returned value — including an empty string or an
empty collection — is passed through unchanged. -/
theorem none_result_placeholder_amended (func : ArgMap → Except String PyValue)
    (tool_name : String) (kwargs : ArgMap) :
    (func kwargs = .ok PyValue.pyNone →
      safe_tool_call func tool_name kwargs =
        .pyStr ("No content returned from " ++ tool_name)) ∧
    (∀ v, func kwargs = .ok v → v ≠ PyValue.pyNone →
      safe_tool_call func tool_name kwargs = v) := by
  constructor
  · intro h
    unfold safe_tool_call
    rw [h]
  · intro v h hv
    unfold safe_tool_call
    rw [h]
    cases v with
    | pyNone => exact absurd rfl hv
    | pyStr s => rfl
    | pyInt n => rfl
    | pyList xs => rfl
    | pyDict fs => rfl

/-- Witness for the amended C8: a `None` result is replaced by the
placeholder, while a non-`None` result is returned as-is. -/
theorem none_result_placeholder_amended_witness :
    safe_tool_call (fun _ => .ok PyValue.pyNone) "scrape_content" [] =
      .pyStr "No content returned from scrape_content" ∧
    safe_tool_call (fun _ => .ok (.pyStr "x")) "scrape_content" [] = .pyStr "x" := by
  constructor
  · exact (none_result_placeholder_amended (fun _ => .ok PyValue.pyNone)
      "scrape_content" []).1 rfl
  · exact (none_result_placeholder_amended (fun _ => .ok (.pyStr "x"))
      "scrape_content" []).2 _ rfl (fun h => PyValue.noConfusion h)

/-- C10: the extractor is not total. When an info-list item has a
comment-marker icon and its stripped text contains `"NPI"` but no colon
(and no map-marker suppressing the branch), `text_content.split(":")[1]`
raises `IndexError`; likewise for a check-circle select element whose text
has no colon. The exception propagates through `processItem`, `extract_data`
and `scrape_provider_search`, and surfaces only as the dispatcher's
`"Error occurred in ..."` string. -/
theorem extractor_index_error :
    (∀ (d : ProviderRecord) (li : ListItem) (td : CardText) (style : String),
      li.text_div = some td → td.icon = some style →
      pyIn "comment-solid" style = true → pyIn "map-marker-solid" style = false →
      pyIn "NPI" (pyStrip td.text) = true →
      (pySplit (pyStrip td.text) ':').get? 1 = none →
      applyText d li = .error "IndexError: list index out of range") ∧
    (∀ (d : ProviderRecord) (li : ListItem) (e : String),
      applyText d li = .error e → processItem d li = .error e) ∧
    (∀ (d : ProviderRecord) (li : ListItem) (sd : SelectDiv) (style : String),
      li.select_div = some sd → sd.icon = some style →
      pyIn "check-circle-solid" style = true →
      (pySplit sd.text ':').get? 1 = none →
      applySelect d li = .error "IndexError: list index out of range") ∧
    extract_data [SibDiv.content ⟨some [⟨some ⟨some "fa-comment-solid", "NPI 1234"⟩, none, none⟩]⟩] =
      .error "IndexError: list index out of range" ∧
    scrape_provider_search (FetchOutcome.response 200
        ⟨"", [], [SibDiv.content ⟨some [⟨some ⟨some "fa-comment-solid", "NPI 1234"⟩, none, none⟩]⟩]⟩) =
      .error "IndexError: list index out of range" ∧
    safe_tool_call
        (fun _ => (scrape_provider_search (FetchOutcome.response 200
          ⟨"", [], [SibDiv.content ⟨some [⟨some ⟨some "fa-comment-solid", "NPI 1234"⟩, none, none⟩]⟩]⟩)).map PyValue.pyStr)
        "scrape_provider_search" [] =
      .pyStr "Error occurred in scrape_provider_search: IndexError: list index out of range" := by
  refine ⟨?_, ?_, ?_, rfl, rfl, rfl⟩
  · intro d li td style h1 h2 hC hM hN hs
    unfold applyText
    rw [h1]
    dsimp only
    rw [h2]
    dsimp only
    rw [if_neg (by rw [hM]; exact Bool.noConfusion)]
    rw [if_pos (by rw [hC, hN]; rfl)]
    rw [hs]
  · intro d li e h
    unfold processItem
    rw [h]
    rfl
  · intro d li sd style h1 h2 hC hs
    unfold applySelect
    rw [h1]
    dsimp only
    rw [h2]
    dsimp only
    rw [if_pos hC]
    rw [hs]

/-- Witness for C10: the concrete item with text `"NPI 1234"` (no colon)
raises the `IndexError`. -/
theorem extractor_index_error_witness :
    applyText {} ⟨some ⟨some "fa-comment-solid", "NPI 1234"⟩, none, none⟩ =
      .error "IndexError: list index out of range" :=
  extractor_index_error.1 {} ⟨some ⟨some "fa-comment-solid", "NPI 1234"⟩, none, none⟩
    ⟨some "fa-comment-solid", "NPI 1234"⟩ "fa-comment-solid" rfl rfl rfl rfl rfl rfl

theorem processItem_ok_cna {d : ProviderRecord} {li : ListItem} {r : ProviderRecord}
    (h : processItem d li = .ok r) :
    ∃ d1, applyText d li = .ok d1 ∧
      r.clinic = d1.clinic ∧ r.NPI = d1.NPI ∧ r.address = d1.address := by
  obtain ⟨d1, ht, hs⟩ := processItem_ok_decomp h
  obtain ⟨-, -, hc, ha, hn, -⟩ := applySelect_ok_same hs
  obtain ⟨-, -, pc, pa, pn, -⟩ := applyPhone_same d1 li
  exact ⟨d1, ht, hc.trans pc, hn.trans pn, ha.trans pa⟩

/-- C3, counterexample: an info-list item whose icon style contains both the
comment marker and the map-marker marker and whose text contains
`"NPI: 1234567890"` does not get its `NPI` field set, contrary to the claim:
the NPI test is the `elif` of the address check, so the map-marker branch
wins, `address` receives the whole text, and `NPI` stays absent. -/
theorem clinic_npi_claim_cex :
    processItem {}
        ⟨some ⟨some "fas fa-comment-solid fa-map-marker-solid", "NPI: 1234567890"⟩, none, none⟩ =
      .ok { address := some "NPI: 1234567890" } ∧
    ({ address := some "NPI: 1234567890" } : ProviderRecord).NPI = none := ⟨rfl, rfl⟩

/-- C3, amended: for an info-list item with a comment-marker text element:
if the stripped text does not contain `"NPI"`, `clinic` is set to the
stripped text; if it does contain `"NPI"` and the icon style does NOT also
contain the map-marker marker (which would route the item to the address
branch instead) and the text contains a colon, `NPI` is set to the second
colon-separated field of the text (the segment between the first colon and
the next colon or the end), stripped, and `clinic` is not set by this
item. -/
theorem clinic_npi_extraction_amended (d : ProviderRecord) (li : ListItem)
    (td : CardText) (style : String) (r : ProviderRecord)
    (h1 : li.text_div = some td) (h2 : td.icon = some style)
    (hC : pyIn "comment-solid" style = true)
    (hr : processItem d li = .ok r) :
    (pyIn "NPI" (pyStrip td.text) = false → r.clinic = some (pyStrip td.text)) ∧
    (∀ s, pyIn "NPI" (pyStrip td.text) = true →
      pyIn "map-marker-solid" style = false →
      (pySplit (pyStrip td.text) ':').get? 1 = some s →
      r.NPI = some (pyStrip s) ∧ r.clinic = d.clinic) := by
  obtain ⟨d1, ht, hcl, hnp, had⟩ := processItem_ok_cna hr
  obtain ⟨fcl, fad, fn1, fn2, fn3⟩ := applyText_ok_fields h1 h2 ht
  constructor
  · intro hN
    rw [hcl, fcl]
    simp [hC, hN]
  · intro s hN hM hs
    constructor
    · rw [hnp]
      exact fn3 s hM (by rw [hC, hN]; rfl) hs
    · rw [hcl, fcl]
      simp [hN]

/-- Witness for the amended C3: the item `"NPI: 1234567890"` with a
comment-marker icon (and no map-marker) yields `NPI = "1234567890"` and
leaves `clinic` absent; the clinic-only item yields `clinic`. -/
theorem clinic_npi_extraction_amended_witness :
    ({ NPI := some "1234567890" } : ProviderRecord).NPI = some "1234567890" ∧
    ({ NPI := some "1234567890" } : ProviderRecord).clinic = none := by
  have h := (clinic_npi_extraction_amended {}
    ⟨some ⟨some "fas fa-comment-solid", "NPI: 1234567890"⟩, none, none⟩
    ⟨some "fas fa-comment-solid", "NPI: 1234567890"⟩ "fas fa-comment-solid"
    { NPI := some "1234567890" } rfl rfl rfl rfl).2 " 1234567890" rfl rfl rfl
  exact h

/-- C4, counterexample: the claim's parenthetical is false — the presence of
the map-marker marker DOES suppress setting `NPI`: on an item whose icon
style contains both markers and whose text contains `"NPI: 9876543210"`,
the extractor sets `address` and leaves `NPI` absent, because the NPI test
is the `elif` of the address check. -/
theorem address_independent_claim_cex :
    processItem {}
        ⟨some ⟨some "fa-map-marker-solid fa-comment-solid", "NPI: 9876543210"⟩, none, none⟩ =
      .ok { address := some "NPI: 9876543210" } ∧
    ({ address := some "NPI: 9876543210" } : ProviderRecord).NPI = none := ⟨rfl, rfl⟩

/-- C4, amended: for an item whose text element's icon style contains the
map-marker marker, the extractor sets `address` to the stripped text; the
address check is independent of the clinic check, so such an item also sets
`clinic` when the style contains the comment marker and the text lacks
`"NPI"`; but the NPI branch is the `elif` of the address check, so a
map-marker item never sets `NPI`. -/
theorem address_branch_amended (d : ProviderRecord) (li : ListItem)
    (td : CardText) (style : String) (r : ProviderRecord)
    (h1 : li.text_div = some td) (h2 : td.icon = some style)
    (hM : pyIn "map-marker-solid" style = true)
    (hr : processItem d li = .ok r) :
    r.address = some (pyStrip td.text) ∧
    r.NPI = d.NPI ∧
    (pyIn "comment-solid" style = true → pyIn "NPI" (pyStrip td.text) = false →
      r.clinic = some (pyStrip td.text)) := by
  obtain ⟨d1, ht, hcl, hnp, had⟩ := processItem_ok_cna hr
  obtain ⟨fcl, fad, fn1, fn2, fn3⟩ := applyText_ok_fields h1 h2 ht
  refine ⟨?_, ?_, ?_⟩
  · rw [had, fad]
    simp [hM]
  · rw [hnp]
    exact fn1 hM
  · intro hC hN
    rw [hcl, fcl]
    simp [hC, hN]

/-- Witness for the amended C4: an item with both markers and no `"NPI"` in
its text sets `address` and `clinic` together and leaves `NPI` absent. -/
theorem address_branch_amended_witness :
    ({ clinic := some "Clinic X", address := some "Clinic X" } : ProviderRecord).address =
      some "Clinic X" ∧
    ({ clinic := some "Clinic X", address := some "Clinic X" } : ProviderRecord).NPI = none ∧
    ({ clinic := some "Clinic X", address := some "Clinic X" } : ProviderRecord).clinic =
      some "Clinic X" := by
  have h := address_branch_amended {}
    ⟨some ⟨some "fa-comment-solid fa-map-marker-solid", " Clinic X "⟩, none, none⟩
    ⟨some "fa-comment-solid fa-map-marker-solid", " Clinic X "⟩
    "fa-comment-solid fa-map-marker-solid"
    { clinic := some "Clinic X", address := some "Clinic X" } rfl rfl rfl rfl
  exact ⟨h.1, h.2.1, h.2.2 rfl rfl⟩

/-- C5: on HTTP 200, `scrape_content` returns a result whose `links` field is
the lexicographically sorted, duplicate-free sequence of the page's anchor
`href` values with absent and empty values dropped (membership is exactly
the non-empty `href` attribute values); on any non-200 status, timeout,
too-many-redirects or other transport failure it returns `None` rather than
an error object. -/
theorem scrape_content_links_spec :
    (∀ page r, scrape_content (FetchOutcome.response 200 page) = some r →
      r.content = page.text ∧
      r.links.Pairwise (fun a b => strLe a b = true) ∧
      r.links.Nodup ∧
      (∀ s : String, s ∈ r.links ↔ (some s ∈ page.anchors ∧ s ≠ ""))) ∧
    (∀ status page, status ≠ 200 →
      scrape_content (FetchOutcome.response status page) = none) ∧
    scrape_content FetchOutcome.timeout = none ∧
    scrape_content FetchOutcome.tooManyRedirects = none ∧
    (∀ msg, scrape_content (FetchOutcome.otherRequestException msg) = none) := by
  refine ⟨?_, ?_, rfl, rfl, fun msg => rfl⟩
  · intro page r h
    unfold scrape_content at h
    dsimp only at h
    rw [if_pos rfl] at h
    obtain rfl := Option.some.inj h
    refine ⟨rfl, pySorted_pairwise _, ?_, ?_⟩
    · refine ((pySorted_perm _).nodup_iff).mpr ?_
      exact (List.nodup_dedup _).filter _
    · intro s
      rw [(pySorted_perm _).mem_iff, List.mem_filter, List.mem_dedup, List.mem_filterMap]
      constructor
      · rintro ⟨⟨a, ha, rfl⟩, hne⟩
        exact ⟨ha, by simpa using hne⟩
      · rintro ⟨ha, hne⟩
        exact ⟨⟨some s, ha, rfl⟩, by simpa using hne⟩
  · intro status page h
    unfold scrape_content
    dsimp only
    rw [if_neg h]

/-- Witness for C5: a 200 page with anchors `["/b", "/a", "/a", absent, ""]`
yields sorted duplicate-free links `["/a", "/b"]` with the expected
membership. -/
theorem scrape_content_links_spec_witness :
    (⟨"txt", ["/a", "/b"]⟩ : ScrapeResult).links.Nodup ∧
    ("/a" ∈ (⟨"txt", ["/a", "/b"]⟩ : ScrapeResult).links ↔
      (some "/a" ∈ pageFix.anchors ∧ "/a" ≠ "")) := by
  have h := scrape_content_links_spec.1 pageFix ⟨"txt", ["/a", "/b"]⟩ rfl
  exact ⟨h.2.2.1, h.2.2.2 "/a"⟩

/-- C6: for a listing content block whose preceding sibling header block
(the nearest earlier header sibling, as `find_previous_sibling` locates it)
contains a link with an `href` attribute, the extracted record's `href`
equals that attribute and its `name` equals the link's stripped text; when
no preceding header exists the record is still produced — with no info list
it is exactly the empty record — and `href`/`name` stay unset in every
successfully produced record. -/
theorem header_link_extraction :
    (∀ (hd : HeaderDiv) (lt : LinkTag) (h : String) (c : ContentDiv) (r : ProviderRecord),
      hd.link = some lt → lt.href = some h →
      processListing (some hd) c = .ok r →
      r.href = some h ∧ r.name = some (pyStrip lt.text)) ∧
    (∀ (c : ContentDiv) (r : ProviderRecord),
      processListing none c = .ok r → r.href = none ∧ r.name = none) ∧
    (∀ (c : ContentDiv), c.info = none →
      processListing none c = .ok ({} : ProviderRecord)) := by
  refine ⟨?_, ?_, ?_⟩
  · intro hd lt h c r hlink hhref hp
    obtain ⟨lk⟩ := hd
    cases hlink
    obtain ⟨lh, ltext⟩ := lt
    cases hhref
    unfold processListing at hp
    dsimp only at hp
    cases hi : c.info with
    | none =>
      rw [hi] at hp
      dsimp only [Bind.bind, Except.bind] at hp
      obtain rfl := Except.ok.inj hp
      exact ⟨rfl, rfl⟩
    | some items =>
      rw [hi] at hp
      dsimp only [Bind.bind, Except.bind] at hp
      have := foldlM_processItem_href_name items _ r hp
      simpa using this
  · intro c r hp
    unfold processListing at hp
    dsimp only at hp
    cases hi : c.info with
    | none =>
      rw [hi] at hp
      dsimp only [Bind.bind, Except.bind] at hp
      obtain rfl := Except.ok.inj hp
      exact ⟨rfl, rfl⟩
    | some items =>
      rw [hi] at hp
      dsimp only [Bind.bind, Except.bind] at hp
      have := foldlM_processItem_href_name items _ r hp
      simpa using this
  · intro c hi
    unfold processListing
    dsimp only
    rw [hi]
    rfl

/-- Witness for C6: a header whose link is `<a href="https://a">Dr. A</a>`
yields `href = "https://a"` and `name = "Dr. A"`; without a header the
empty content block yields the empty record. -/
theorem header_link_extraction_witness :
    (recLeak.href = some "https://a" ∧ recLeak.name = some (pyStrip "Dr. A")) ∧
    processListing none ⟨none⟩ = .ok ({} : ProviderRecord) := by
  constructor
  · exact header_link_extraction.1 headerFixA ⟨some "https://a", "Dr. A"⟩ "https://a" ⟨none⟩
      recLeak rfl rfl rfl
  · exact header_link_extraction.2.2 ⟨none⟩ rfl

/-- C9, counterexample: a record's header-derived fields can come from
another listing's header. In `soupLeak` the second content block's
immediately preceding sibling is a content block, not a header, yet its
record carries `href`/`name` taken from the first listing's header (located
by `find_previous_sibling`, which searches all earlier siblings) — so
extraction does merge header fields across listing boundaries, contrary to
the claim. -/
theorem per_listing_origin_cex :
    extract_data soupLeak = .ok [recLeak, recLeak] ∧
    recLeak.href = some "https://a" ∧
    soupLeak.get? 1 = some (SibDiv.content ⟨none⟩) ∧
    prevHeader [SibDiv.content ⟨none⟩, SibDiv.header headerFixA] = some headerFixA :=
  ⟨rfl, rfl, rfl, rfl⟩

/-- C9, amended: the extractor produces exactly one record per listing
content block, in document order: the record count equals the content-block
count, and each record is the result of processing its own content block
together with the nearest PREVIOUS header sibling — which is the listing's
own header when one immediately precedes it, but may belong to an earlier
listing, so header-derived fields can leak across listing boundaries. -/
theorem per_listing_origin_amended (soup : List SibDiv) (rs : List ProviderRecord)
    (h : extract_data soup = .ok rs) :
    rs.length = soup.countP isContentDiv ∧
    rs.length = (listingPairs [] soup).length ∧
    ∀ (i : Nat) (hi : i < rs.length) (hp : i < (listingPairs [] soup).length),
      processListing ((listingPairs [] soup).get ⟨i, hp⟩).1
          ((listingPairs [] soup).get ⟨i, hp⟩).2 = .ok (rs.get ⟨i, hi⟩) := by
  obtain ⟨hlen, hidx⟩ := extractGo_ok_spec soup [] rs h
  exact ⟨hlen.trans (listingPairs_length soup []), hlen, hidx⟩

/-- Witness for the amended C9: `soupLeak` has two content blocks and yields
two records, the first produced from the pair (first header, first content
block). -/
theorem per_listing_origin_amended_witness :
    ([recLeak, recLeak] : List ProviderRecord).length = soupLeak.countP isContentDiv ∧
    processListing ((listingPairs [] soupLeak).get ⟨0, by decide⟩).1
        ((listingPairs [] soupLeak).get ⟨0, by decide⟩).2 =
      .ok (([recLeak, recLeak] : List ProviderRecord).get ⟨0, by decide⟩) := by
  have h := per_listing_origin_amended soupLeak [recLeak, recLeak] rfl
  exact ⟨h.1, h.2.2 0 (by decide) (by decide)⟩

theorem dispatchCalls_spec (w : World) :
    ∀ (cs : List ToolCall),
      (∀ c ∈ cs, (available_functions w c.function_name).isSome = true) →
      ∃ outs : List ToolOutput,
        dispatchCalls w cs = (cs.map (fun c => Event.dispatch c.id), .ok outs) ∧
        outs.length = cs.length ∧
        ∀ (i : Nat) (ho : i < outs.length) (hc : i < cs.length),
          (outs.get ⟨i, ho⟩).tool_call_id = (cs.get ⟨i, hc⟩).id := by
  intro cs
  induction cs with
  | nil =>
    intro _
    exact ⟨[], rfl, rfl, fun i ho => absurd ho (by simp)⟩
  | cons c cs ih =>
    intro hreg
    obtain ⟨f, hf⟩ := Option.isSome_iff_exists.mp (hreg c (List.mem_cons_self c cs))
    obtain ⟨outs, heq, hlen, hids⟩ := ih (fun c2 hc2 => hreg c2 (List.mem_cons_of_mem c hc2))
    refine ⟨⟨c.id, safe_tool_call f c.function_name c.arguments⟩ :: outs, ?_, by simp [hlen], ?_⟩
    · unfold dispatchCalls
      rw [hf, heq]
      rfl
    · intro i ho hc
      cases i with
      | zero => rfl
      | succ j =>
        have hjo : j < outs.length := by simpa using ho
        have hjc : j < cs.length := by simpa using hc
        simpa using hids j hjo hjc

/-- C7: when the loop polls a run that requires action with `n` pending tool
calls (all naming registered tools), it dispatches each call in order and
then performs exactly one `submit_tool_outputs` carrying exactly one
ToolOutput per ToolCall (same count, matching ids, in order), and no further
poll happens until after that single batched submission: the trace between
the poll and the continuation is the dispatches followed by the one
submit-batch event, neither of which is a poll. -/
theorem requires_action_single_batch (w : World) (run r : Run) (rest : List Run)
    (hrun : run.status = RunStatus.queued ∨ run.status = RunStatus.in_progress)
    (hr : r.status = RunStatus.requires_action)
    (hreg : ∀ c ∈ r.tool_calls, (available_functions w c.function_name).isSome = true) :
    ∃ outs : List ToolOutput,
      pollLoop w (some run) (r :: rest) =
        Event.poll :: ((r.tool_calls.map (fun c => Event.dispatch c.id) ++
          [Event.submitBatch outs]) ++ pollLoop w (w.submitOutcome outs) rest) ∧
      outs.length = r.tool_calls.length ∧
      (∀ (i : Nat) (ho : i < outs.length) (hc : i < r.tool_calls.length),
        (outs.get ⟨i, ho⟩).tool_call_id = (r.tool_calls.get ⟨i, hc⟩).id) ∧
      Event.poll ∉ r.tool_calls.map (fun c => Event.dispatch c.id) ∧
      Event.poll ≠ Event.submitBatch outs := by
  obtain ⟨outs, heq, hlen, hids⟩ := dispatchCalls_spec w r.tool_calls hreg
  refine ⟨outs, ?_, hlen, hids, ?_, fun h => Event.noConfusion h⟩
  · have hcond : (run.status = RunStatus.queued || run.status = RunStatus.in_progress) = true := by
      rcases hrun with h | h <;> simp [h]
    conv_lhs => unfold pollLoop
    rw [if_pos hcond]
    dsimp only
    rw [if_pos hr]
    conv_lhs => unfold handle_tool_outputs
    rw [heq]
  · intro hmem
    obtain ⟨c, -, hc⟩ := List.mem_map.mp hmem
    exact Event.noConfusion hc

/-- Witness for C7: a queued run followed by a requires-action run with two
registered tool calls produces the poll, the two dispatches and the single
batched submission. -/
theorem requires_action_single_batch_witness :
    ∃ outs : List ToolOutput,
      pollLoop wFix (some runQueuedFix) (runActionFix :: []) =
        Event.poll :: ((runActionFix.tool_calls.map (fun c => Event.dispatch c.id) ++
          [Event.submitBatch outs]) ++ pollLoop wFix (wFix.submitOutcome outs) []) ∧
      outs.length = runActionFix.tool_calls.length ∧
      (∀ (i : Nat) (ho : i < outs.length) (hc : i < runActionFix.tool_calls.length),
        (outs.get ⟨i, ho⟩).tool_call_id = (runActionFix.tool_calls.get ⟨i, hc⟩).id) ∧
      Event.poll ∉ runActionFix.tool_calls.map (fun c => Event.dispatch c.id) ∧
      Event.poll ≠ Event.submitBatch outs := by
  refine requires_action_single_batch wFix runQueuedFix runActionFix [] (Or.inl rfl) rfl ?_
  intro c hc
  rcases List.mem_cons.mp hc with rfl | hc2
  · rfl
  · rcases List.mem_cons.mp hc2 with rfl | hc3
    · rfl
    · exact absurd hc3 (List.not_mem_nil c)
